import Mathlib

/-!
Verification of the watcher core of a cross-platform filesystem watcher
library (a path-watcher registry, per-subscription event translator, and
an FSEvents-based macOS backend).

The development shallowly embeds the relevant source functions:

* the per-subscription event translator `PathWatcher.onNativeEvent` and
  `PathWatcher.moveToPath` (src/main.js);
* subscription creation, `watch` and the `PathWatcher` constructor
  (src/main.js);
* the `NativeWatcher` instance registry, `NativeWatcher.findOrCreate`,
  `start` and `stop` (src/main.js);
* the consolidation registry `NativeWatcherRegistry` / `RegistryTree` /
  `RegistryNode` / `RegistryWatcherNode` (src/native-watcher-registry.js);
* the macOS FSEvents backend rename reconstruction
  `FSEventsFileWatcher::handleActions` (lib/platform/FSEventsFileWatcher.cpp).

Paths are modelled as Lean strings over the POSIX separator and the
filesystem as an oracle function, mirroring the synchronous fs calls in
the source.
-/

/-! ## Path helpers (src/main.js and Node's `path` module, POSIX flavour) -/

/-- Boolean list-prefix test, used to model the JS `String.startsWith`
(computable by the kernel, unlike the byte-based core implementation). -/
def listLeadsWith : List Char → List Char → Bool
  | [], _ => true
  | _ :: _, [] => false
  | a :: as, b :: bs => a == b && listLeadsWith as bs

/-- Model of the JS `s.startsWith(pre)`. -/
def strStartsWith (s pre : String) : Bool :=
  listLeadsWith pre.data s.data

/-- Embedding of `sep` from src/main.js: ensures a directory path ends
with a path separator (JS `dirPath.endsWith(path.sep)`). -/
def sepDir (dirPath : String) : String :=
  if dirPath.data.getLast? == some '/' then dirPath else dirPath ++ "/"

/-- Embedding of Node's `path.dirname` (POSIX): scan from the end, skip
trailing separators, cut just before the separator that terminates the
last component; special cases for root-only and relative paths. -/
def dirnameJS (p : String) : String :=
  let cs := p.data
  if cs.isEmpty then "."
  else
    let hasRoot := cs.head? == some '/'
    let rev2 := (cs.reverse.dropWhile (fun c => c == '/')).dropWhile (fun c => c != '/')
    if rev2.length ≤ 1 then (if hasRoot then "/" else ".")
    else if hasRoot && rev2.length == 2 then "//"
    else String.mk (cs.take (rev2.length - 1))

/-! ## The event translator (`PathWatcher.onNativeEvent`, src/main.js)

The mutable subscription fields consulted and updated by the translator. In
the source, `originalNormalizedPath` is the canonical path of the watched
target (a file or a directory), `normalizedPath` is the directory actually
watched (the parent when the target is a file), and `isWatchingParent`
records whether the target is a file. -/

structure PWState where
  originalNormalizedPath : String
  normalizedPath : String
  isWatchingParent : Bool
  deriving Repr, DecidableEq

/-- A raw event as delivered to `PathWatcher.onNativeEvent`: the `action`
string produced by the native addon, the new path and the optional old
path (renames). -/
structure RawEvent where
  action : String
  path : String
  oldPath : Option String
  deriving Repr, DecidableEq

/-- Embedding of the `isWatchedPath` closure in `onNativeEvent`:
`eventPath?.startsWith(sep(this.normalizedPath))`, where a missing path
(JS `undefined` with optional chaining) is not watched. -/
def isWatchedPathB (normalizedPath : String) (p : Option String) : Bool :=
  match p with
  | some q => strStartsWith q (sepDir normalizedPath)
  | none => false

/-- Embedding of `PathWatcher.moveToPath` (src/main.js). `isDir` is the
filesystem oracle behind `fs.statSync(..).isDirectory()`: `none` when the
path does not exist (in which case `statSync` throws, modelled by the
`none` result). -/
def moveToPath (isDir : String → Option Bool) (s : PWState) (newPath : String) :
    Option PWState :=
  match isDir newPath with
  | none => none
  | some d =>
    if !d then
      some { originalNormalizedPath := newPath,
             normalizedPath := dirnameJS newPath,
             isWatchingParent := true }
    else
      some { originalNormalizedPath := newPath,
             normalizedPath := newPath,
             isWatchingParent := false }

/-- The code after the `switch` in `onNativeEvent`: drop a spurious
`create` for the exact target, and for events naming the exact target
replace the path argument by `null` (for a delete) or the empty string.
Returns the (unchanged) state together with the delivered event, if any.
The delivered path argument is `Option String`, `none` standing for the
JS `null` sentinel. -/
def finishEvent (eventPathIsEqual : Bool) (s : PWState) (act : String) (p : String) :
    Option (PWState × Option (String × Option String)) :=
  if eventPathIsEqual && act == "create" then some (s, none)
  else if eventPathIsEqual then
    some (s, some (act, if act == "delete" then none else some ""))
  else some (s, some (act, some p))

/-- Embedding of `PathWatcher.onNativeEvent` (src/main.js). The result is
`none` when the source throws (only via `fs.statSync` inside
`moveToPath`, or `path.dirname(undefined)`); otherwise `some (s, out)`
with the updated subscription state and the event delivered to the user
callback, if any. -/
def onNativeEvent (isDir : String → Option Bool) (s : PWState) (e : RawEvent) :
    Option (PWState × Option (String × Option String)) :=
  let eventPathIsEqual := s.originalNormalizedPath == e.path
  let eventOldPathIsEqual := some s.originalNormalizedPath == e.oldPath
  let newWatched := isWatchedPathB s.normalizedPath (some e.path)
  let oldWatched := isWatchedPathB s.normalizedPath e.oldPath
  if !newWatched && !oldWatched then some (s, none)
  else if e.action == "rename" || e.action == "delete" || e.action == "create" then
    finishEvent eventPathIsEqual s e.action e.path
  else if e.action == "child-create" then
    if !s.isWatchingParent then
      if eventPathIsEqual then finishEvent eventPathIsEqual s "create" e.path
      else finishEvent eventPathIsEqual s "change" ""
    else if eventPathIsEqual then finishEvent eventPathIsEqual s "create" e.path
    else finishEvent eventPathIsEqual s "child-create" e.path
  else if e.action == "child-delete" then
    if !s.isWatchingParent then finishEvent eventPathIsEqual s "change" ""
    else if eventPathIsEqual then finishEvent eventPathIsEqual s "delete" e.path
    else finishEvent eventPathIsEqual s "child-delete" e.path
  else if e.action == "child-rename" then
    let pathIsInvolved := eventPathIsEqual || eventOldPathIsEqual
    if s.isWatchingParent && !pathIsInvolved then some (s, none)
    else if !s.isWatchingParent && !pathIsInvolved then
      if dirnameJS e.path == s.normalizedPath then finishEvent eventPathIsEqual s "change" ""
      else
        match e.oldPath with
        | none => none
        | some op =>
          if dirnameJS op == s.normalizedPath then finishEvent eventPathIsEqual s "change" ""
          else some (s, none)
    else
      match (if newWatched && !(s.originalNormalizedPath == e.path)
             then moveToPath isDir s e.path else some s) with
      | none => none
      | some s1 =>
        let act :=
          if oldWatched && newWatched then "rename"
          else if oldWatched && !newWatched then "delete"
          else if !oldWatched && newWatched then "create"
          else e.action
        finishEvent eventPathIsEqual s1 act e.path
  else if e.action == "child-change" then
    if !s.isWatchingParent then
      if eventPathIsEqual then some (s, none)
      else finishEvent eventPathIsEqual s "change" ""
    else if eventPathIsEqual then finishEvent eventPathIsEqual s "change" ""
    else some (s, none)
  else finishEvent eventPathIsEqual s e.action e.path

/-! ## Subscription creation (`watch` and the `PathWatcher` constructor,
src/main.js) -/

/-- The filesystem as seen by the synchronous fs calls in src/main.js:
`stat p` is `none` when `p` does not exist and otherwise reports whether
`p` is a directory; `realpath` is `none` when `fs.realpathSync` throws. -/
structure FileSystemModel where
  stat : String → Option Bool
  realpath : String → Option String

/-- Embedding of `fs.existsSync`. -/
def existsSyncB (fs : FileSystemModel) (p : String) : Bool :=
  (fs.stat p).isSome

/-- Embedding of `getRealFilePath` from src/main.js:
`fs.realpathSync(filePath) ?? filePath`, falling back to the input when
realpath resolution throws. -/
def getRealFilePath (fs : FileSystemModel) (filePath : String) : String :=
  (fs.realpath filePath).getD filePath

/-- Embedding of the `WatcherError` class of src/main.js (also stands in
for a Node fs error: both carry a message and an OS-level `code`). -/
structure WatcherErrorModel where
  message : String
  code : String
  deriving Repr, DecidableEq

/-- The observable outcome of constructing a `PathWatcher`: the requested
path, the translator state derived from it, and the `active` flag. -/
structure PathWatcherRec where
  watchedPath : String
  state : PWState
  active : Bool
  deriving Repr, DecidableEq

/-- Embedding of the `PathWatcher` constructor (src/main.js): throw
`WatcherError('Unable to watch path', 'ENOENT')` when the path does not
exist; otherwise canonicalize, decide whether the target is a file, and
watch the parent directory for files. The `fs.statSync` inside
`isDirectory` throws (a Node ENOENT error) if the canonical path
vanished; either error carries the OS-level code ENOENT. -/
def mkPathWatcher (fs : FileSystemModel) (watchedPath : String) :
    Except WatcherErrorModel PathWatcherRec :=
  if !(existsSyncB fs watchedPath) then
    .error { message := "Unable to watch path", code := "ENOENT" }
  else
    let np := getRealFilePath fs watchedPath
    match fs.stat np with
    | none => .error { message := "no such file or directory, stat", code := "ENOENT" }
    | some d =>
      let isWatchingParent := !d
      .ok { watchedPath := watchedPath,
            state := { originalNormalizedPath := np,
                       normalizedPath := if isWatchingParent then dirnameJS np else np,
                       isWatchingParent := isWatchingParent },
            active := true }

/-- Model of Node's `path.resolve(p)` against the current working
directory, for already-normalized inputs (absolute `cwd`, no `.` or `..`
segments): an absolute path is returned as is, a relative one is joined
onto `cwd`. -/
def resolvePath (cwd p : String) : String :=
  if strStartsWith p "/" then p else cwd ++ "/" ++ p

/-- Embedding of `watch` (src/main.js): resolve the requested path, run
the `PathWatcher` constructor, and record the new subscription. The
constructor throws before any registry or native-watcher interaction, so
on error the subscription list is unchanged. -/
def watchModel (fs : FileSystemModel) (cwd : String) (subs : List PathWatcherRec)
    (pathToWatch : String) :
    List PathWatcherRec × Except WatcherErrorModel PathWatcherRec :=
  match mkPathWatcher fs (resolvePath cwd pathToWatch) with
  | .error err => (subs, .error err)
  | .ok w => (subs ++ [w], .ok w)

/-! ## Theorems about the event translator -/

/-- C2: if neither the raw event's new path nor its old path lies inside
the subscription's `normalizedPath` (the `isWatchedPath` check of
`onNativeEvent`), the translator emits nothing and leaves the state
unchanged; consequently every delivered callback invocation comes from an
event whose new path or old path lies inside `normalizedPath`. -/
theorem translator_inside_filter (isDir : String → Option Bool) (s : PWState) (e : RawEvent) :
    (isWatchedPathB s.normalizedPath (some e.path) = false →
     isWatchedPathB s.normalizedPath e.oldPath = false →
     onNativeEvent isDir s e = some (s, none))
    ∧ (∀ s1 out, onNativeEvent isDir s e = some (s1, some out) →
        (isWatchedPathB s.normalizedPath (some e.path) = true ∨
         isWatchedPathB s.normalizedPath e.oldPath = true)) := by
  constructor
  · intro h1 h2
    simp [onNativeEvent, h1, h2]
  · intro s1 out hrun
    by_cases h1 : isWatchedPathB s.normalizedPath (some e.path) = true
    · exact Or.inl h1
    · by_cases h2 : isWatchedPathB s.normalizedPath e.oldPath = true
      · exact Or.inr h2
      · simp only [Bool.not_eq_true] at h1 h2
        simp [onNativeEvent, h1, h2] at hrun

/-- Witness for `translator_inside_filter` at a concrete subscription and
event lying entirely outside the watched directory. -/
theorem translator_inside_filter_witness :
    onNativeEvent (fun _ => none)
      { originalNormalizedPath := "/X", normalizedPath := "/X", isWatchingParent := false }
      { action := "child-change", path := "/Y/a", oldPath := none } =
    some ({ originalNormalizedPath := "/X", normalizedPath := "/X", isWatchingParent := false },
          none) :=
  (translator_inside_filter (fun _ => none)
      { originalNormalizedPath := "/X", normalizedPath := "/X", isWatchingParent := false }
      { action := "child-change", path := "/Y/a", oldPath := none }).1
    (by decide) (by decide)

/-- C1 counterexample: a `child-rename` whose destination equals the
subscription's exact target (watching file `/X/f`, rename `/X/g` to
`/X/f`) is delivered with action `rename` and path argument equal to the
empty string, not the full new path `/X/f` that the claim requires for
every delivered rename. -/
theorem rename_onto_target_empty_path_cex :
    (onNativeEvent (fun _ => none)
      { originalNormalizedPath := "/X/f", normalizedPath := "/X", isWatchingParent := true }
      { action := "child-rename", path := "/X/f", oldPath := some "/X/g" } =
    some ({ originalNormalizedPath := "/X/f", normalizedPath := "/X", isWatchingParent := true },
          some ("rename", some "")))
    ∧ (some "" : Option String) ≠ some "/X/f" := by
  constructor
  · decide
  · decide

/-- C1 (amended): for every event the translator delivers from a raw
child event (the only kinds the native addon sends — see
`EventType(action, true)` in lib/core.h): a `delete` whose raw path
equals the exact target carries the null path; a `change` carries the
empty string; and a `rename` carries the full new path when the raw
event's path differs from the exact target, and the empty string when it
equals it. -/
theorem translator_path_field_convention (isDir : String → Option Bool) (s : PWState)
    (e : RawEvent) (s1 : PWState) (out : String × Option String)
    (hact : e.action = "child-create" ∨ e.action = "child-change" ∨
            e.action = "child-delete" ∨ e.action = "child-rename")
    (hrun : onNativeEvent isDir s e = some (s1, some out)) :
    (out.1 = "delete" → s.originalNormalizedPath = e.path → out.2 = none)
    ∧ (out.1 = "change" → out.2 = some "")
    ∧ (out.1 = "rename" →
        out.2 = some (if s.originalNormalizedPath = e.path then "" else e.path)) := by
  rcases hact with h | h | h | h
  · by_cases h1 : s.isWatchingParent = true <;>
      by_cases h2 : s.originalNormalizedPath = e.path <;>
      by_cases h4 : isWatchedPathB s.normalizedPath (some e.path) = true <;>
      by_cases h5 : isWatchedPathB s.normalizedPath e.oldPath = true <;>
      simp_all [onNativeEvent, finishEvent] <;> (obtain ⟨rfl, rfl⟩ := hrun; simp)
  · by_cases h1 : s.isWatchingParent = true <;>
      by_cases h2 : s.originalNormalizedPath = e.path <;>
      by_cases h4 : isWatchedPathB s.normalizedPath (some e.path) = true <;>
      by_cases h5 : isWatchedPathB s.normalizedPath e.oldPath = true <;>
      simp_all [onNativeEvent, finishEvent] <;> (obtain ⟨rfl, rfl⟩ := hrun; simp)
  · by_cases h1 : s.isWatchingParent = true <;>
      by_cases h2 : s.originalNormalizedPath = e.path <;>
      by_cases h4 : isWatchedPathB s.normalizedPath (some e.path) = true <;>
      by_cases h5 : isWatchedPathB s.normalizedPath e.oldPath = true <;>
      simp_all [onNativeEvent, finishEvent] <;> (obtain ⟨rfl, rfl⟩ := hrun; simp)
  · by_cases h1 : s.isWatchingParent = true <;>
      by_cases h2 : s.originalNormalizedPath = e.path <;>
      by_cases h3 : some s.originalNormalizedPath = e.oldPath <;>
      by_cases h4 : isWatchedPathB s.normalizedPath (some e.path) = true <;>
      by_cases h5 : isWatchedPathB s.normalizedPath e.oldPath = true <;>
      cases hm : moveToPath isDir s e.path <;>
      simp_all [onNativeEvent, finishEvent] <;>
      (first
        | (obtain ⟨rfl, rfl⟩ := hrun; simp)
        | ((repeat' (split at hrun)) <;>
            first
              | (obtain ⟨rfl, rfl⟩ := hrun; simp)
              | simp_all))

/-- Witness for `translator_path_field_convention`: a `child-delete` of
the exact watched file is delivered as a `delete` with null path. -/
theorem translator_path_field_convention_witness :
    let s : PWState :=
      { originalNormalizedPath := "/X/f", normalizedPath := "/X", isWatchingParent := true }
    let e : RawEvent := { action := "child-delete", path := "/X/f", oldPath := none }
    onNativeEvent (fun _ => none) s e = some (s, some ("delete", none)) ∧
    ((("delete" : String), (none : Option String)).1 = "delete" →
      s.originalNormalizedPath = e.path → (("delete" : String), (none : Option String)).2 = none) := by
  refine ⟨by decide, ?_⟩
  exact (translator_path_field_convention (fun _ => none)
    { originalNormalizedPath := "/X/f", normalizedPath := "/X", isWatchingParent := true }
    { action := "child-delete", path := "/X/f", oldPath := none }
    { originalNormalizedPath := "/X/f", normalizedPath := "/X", isWatchingParent := true }
    ("delete", none)
    (Or.inr (Or.inr (Or.inl rfl)))
    (by decide)).1

/-- C7: any raw `create` or `child-create` event whose path equals the
subscription's exact target (a path that necessarily existed when the
subscription was created — the constructor rejects missing paths) is
dropped by the translator: no callback is invoked and the state is
unchanged. -/
theorem create_for_existing_target_dropped (isDir : String → Option Bool) (s : PWState)
    (e : RawEvent)
    (hpath : e.path = s.originalNormalizedPath)
    (hact : e.action = "create" ∨ e.action = "child-create") :
    onNativeEvent isDir s e = some (s, none) := by
  rcases hact with h | h <;>
    simp only [onNativeEvent, h, hpath, finishEvent] <;> simp [finishEvent]

/-- Witness for `create_for_existing_target_dropped`: a `child-create`
for the exact watched file is dropped. -/
theorem create_for_existing_target_dropped_witness :
    onNativeEvent (fun _ => none)
      { originalNormalizedPath := "/X/f", normalizedPath := "/X", isWatchingParent := true }
      { action := "child-create", path := "/X/f", oldPath := none } =
    some ({ originalNormalizedPath := "/X/f", normalizedPath := "/X", isWatchingParent := true },
          none) :=
  create_for_existing_target_dropped (fun _ => none)
    { originalNormalizedPath := "/X/f", normalizedPath := "/X", isWatchingParent := true }
    { action := "child-create", path := "/X/f", oldPath := none }
    (by decide) (Or.inr rfl)

/-- C4: a `child-rename` that involves the watched file (old path equals
the target), whose destination lies inside the watched directory and
differs from the current target: the subscription state moves to the new
path (`target := new`, and since the new path is a file,
`normalizedPath := dirname(new)`), the callback is invoked once with
`rename` and the full new path, and a subsequent `child-change` at the
new path is still delivered (as `change` with empty path). -/
theorem translator_follows_rename_within_subtree (isDir : String → Option Bool)
    (s : PWState) (e : RawEvent)
    (hiw : s.isWatchingParent = true)
    (hact : e.action = "child-rename")
    (hold : e.oldPath = some s.originalNormalizedPath)
    (hnw : strStartsWith e.path (sepDir s.normalizedPath) = true)
    (how : strStartsWith s.originalNormalizedPath (sepDir s.normalizedPath) = true)
    (hne : s.originalNormalizedPath ≠ e.path)
    (hfile : isDir e.path = some false) :
    onNativeEvent isDir s e =
      some ({ originalNormalizedPath := e.path,
              normalizedPath := dirnameJS e.path,
              isWatchingParent := true },
            some ("rename", some e.path))
    ∧ (strStartsWith e.path (sepDir (dirnameJS e.path)) = true →
        onNativeEvent isDir
          { originalNormalizedPath := e.path, normalizedPath := dirnameJS e.path,
            isWatchingParent := true }
          { action := "child-change", path := e.path, oldPath := none } =
        some ({ originalNormalizedPath := e.path, normalizedPath := dirnameJS e.path,
                isWatchingParent := true },
              some ("change", some ""))) := by
  constructor
  · simp [onNativeEvent, isWatchedPathB, hact, hold, hiw, hne, hnw, how,
      moveToPath, hfile, finishEvent]
  · intro hpre
    simp [onNativeEvent, isWatchedPathB, hpre, finishEvent]

/-- Witness for `translator_follows_rename_within_subtree`: watch file
`/X/f`, rename it to `/X/g`. -/
theorem translator_follows_rename_within_subtree_witness :
    onNativeEvent (fun p => if p == "/X/g" then some false else none)
      { originalNormalizedPath := "/X/f", normalizedPath := "/X", isWatchingParent := true }
      { action := "child-rename", path := "/X/g", oldPath := some "/X/f" } =
      some ({ originalNormalizedPath := "/X/g",
              normalizedPath := dirnameJS "/X/g",
              isWatchingParent := true },
            some ("rename", some "/X/g"))
    ∧ onNativeEvent (fun p => if p == "/X/g" then some false else none)
        { originalNormalizedPath := "/X/g", normalizedPath := dirnameJS "/X/g",
          isWatchingParent := true }
        { action := "child-change", path := "/X/g", oldPath := none } =
      some ({ originalNormalizedPath := "/X/g", normalizedPath := dirnameJS "/X/g",
              isWatchingParent := true },
            some ("change", some "")) := by
  have h := translator_follows_rename_within_subtree
    (fun p => if p == "/X/g" then some false else none)
    { originalNormalizedPath := "/X/f", normalizedPath := "/X", isWatchingParent := true }
    { action := "child-rename", path := "/X/g", oldPath := some "/X/f" }
    (by decide) (by decide) (by decide) (by decide) (by decide) (by decide) (by decide)
  exact ⟨h.1, h.2 (by decide)⟩

/-! ## Theorems about subscription creation -/

/-- C3: if the (resolved) requested path does not exist at subscribe
time, `watch` throws a not-found `WatcherError` carrying the OS-level
code ENOENT, and no subscription is created (the subscription list is
unchanged). -/
theorem watch_missing_path_throws_enoent (fs : FileSystemModel) (cwd : String)
    (subs : List PathWatcherRec) (p : String)
    (h : fs.stat (resolvePath cwd p) = none) :
    watchModel fs cwd subs p =
      (subs, .error { message := "Unable to watch path", code := "ENOENT" }) := by
  simp [watchModel, mkPathWatcher, existsSyncB, h]

/-- Witness for `watch_missing_path_throws_enoent` on an empty
filesystem. -/
theorem watch_missing_path_throws_enoent_witness :
    watchModel { stat := fun _ => none, realpath := fun _ => none } "/c" [] "missing" =
      ([], .error { message := "Unable to watch path", code := "ENOENT" }) :=
  watch_missing_path_throws_enoent
    { stat := fun _ => none, realpath := fun _ => none } "/c" [] "missing" (by decide)

/-- C10: a relative requested path is first resolved against the current
working directory, so when the resolved path exists (and its canonical
form still exists for the `statSync` call) the watch is accepted: a new
active subscription is created whose `watchedPath` is the resolved
absolute path. -/
theorem watch_resolves_relative_paths (fs : FileSystemModel) (cwd : String)
    (subs : List PathWatcherRec) (p : String) (d d2 : Bool)
    (hrel : strStartsWith p "/" = false)
    (hex : fs.stat (resolvePath cwd p) = some d)
    (hre : fs.stat (getRealFilePath fs (resolvePath cwd p)) = some d2) :
    ∃ w, watchModel fs cwd subs p = (subs ++ [w], .ok w)
      ∧ w.watchedPath = cwd ++ "/" ++ p
      ∧ w.active = true := by
  refine ⟨{ watchedPath := resolvePath cwd p,
            state := { originalNormalizedPath := getRealFilePath fs (resolvePath cwd p),
                       normalizedPath :=
                         if !d2 then dirnameJS (getRealFilePath fs (resolvePath cwd p))
                         else getRealFilePath fs (resolvePath cwd p),
                       isWatchingParent := !d2 },
            active := true }, ?_, ?_, rfl⟩
  · simp [watchModel, mkPathWatcher, existsSyncB, hex, hre]
  · simp [resolvePath, hrel]

/-- Witness for `watch_resolves_relative_paths`: watching the relative
path `a` from cwd `/c` on a filesystem containing the directory `/c/a`. -/
theorem watch_resolves_relative_paths_witness :
    ∃ w, watchModel
        { stat := fun q => if q == "/c/a" then some true else none,
          realpath := fun q => some q } "/c" [] "a" = ([] ++ [w], .ok w)
      ∧ w.watchedPath = "/c" ++ "/" ++ "a"
      ∧ w.active = true :=
  watch_resolves_relative_paths
    { stat := fun q => if q == "/c/a" then some true else none,
      realpath := fun q => some q } "/c" [] "a" true true
    (by decide) (by decide) (by decide)

/-! ## The `NativeWatcher` instance registry (src/main.js)

`NativeWatcher.INSTANCES` maps live backend handles to watcher instances.
`findOrCreate` scans the live instances for one already watching the
requested path and otherwise constructs a fresh (not yet running)
instance; `start` registers the instance under a fresh backend handle
when the path exists; `stop` removes it. `watchAt` below is the
synchronous `findOrCreate`-then-`start` sequence performed when a
subscription attaches; an instance whose `start` failed is not retained
(it is reachable only through the registry tree, never through
`INSTANCES`). -/

structure NWRec where
  normalizedPath : String
  recursive : Bool
  running : Bool
  deriving Repr, DecidableEq

/-- Embedding of `NativeWatcher.findOrCreate` (src/main.js): return the
first live instance watching `p`, or a fresh stopped instance. The
`recursive` option only affects a freshly created instance. -/
def findOrCreate (instances : List (Nat × NWRec)) (p : String) (recursive : Bool) : NWRec :=
  match instances.find? (fun e => e.2.normalizedPath == p) with
  | some e => e.2
  | none => { normalizedPath := p, recursive := recursive, running := false }

/-- The live-instance table (`NativeWatcher.INSTANCES`, keyed by backend
handle) together with the backend's next fresh handle. -/
structure NWSystem where
  instances : List (Nat × NWRec)
  nextHandle : Nat
  deriving Repr, DecidableEq

/-- Embedding of `NativeWatcher.start` (src/main.js): a no-op when
already running or when the path no longer exists; otherwise obtain a
backend handle and register the instance in `INSTANCES`. -/
def startNW (fsExists : String → Bool) (sys : NWSystem) (w : NWRec) : NWSystem :=
  if w.running then sys
  else if !(fsExists w.normalizedPath) then sys
  else { instances := sys.instances ++ [(sys.nextHandle, { w with running := true })],
         nextHandle := sys.nextHandle + 1 }

/-- Embedding of `NativeWatcher.stop` (src/main.js): drop the instance's
handle from `INSTANCES`. -/
def stopNW (sys : NWSystem) (h : Nat) : NWSystem :=
  { sys with instances := sys.instances.filter (fun e => e.1 != h) }

/-- An attach (`findOrCreate` followed by `start`, as performed
synchronously when a subscription subscribes to `did-change`) or a
detach (a `stop`). -/
inductive WatcherOp where
  | watchAt (p : String) (recursive : Bool)
  | stopHandle (h : Nat)

/-- One attach/detach step against the live-instance table. -/
def runOp (fsExists : String → Bool) (sys : NWSystem) : WatcherOp → NWSystem
  | .watchAt p r => startNW fsExists sys (findOrCreate sys.instances p r)
  | .stopHandle h => stopNW sys h

/-- Run a sequence of attach/detach operations from the initial empty
instance table. -/
def runOps (fsExists : String → Bool) (ops : List WatcherOp) : NWSystem :=
  ops.foldl (runOp fsExists) { instances := [], nextHandle := 0 }

/-- The inductive invariant of the live-instance table: no two live
instances watch the same path, and every live instance is running. -/
def sysInv (sys : NWSystem) : Prop :=
  sys.instances.Pairwise (fun a b => a.2.normalizedPath ≠ b.2.normalizedPath) ∧
  ∀ e ∈ sys.instances, e.2.running = true

theorem runOp_preserves (fsExists : String → Bool) (sys : NWSystem) (op : WatcherOp)
    (h : sysInv sys) : sysInv (runOp fsExists sys op) := by
  obtain ⟨hp, hr⟩ := h
  cases op with
  | stopHandle hd =>
    refine ⟨hp.sublist (List.filter_sublist _), ?_⟩
    intro e he
    exact hr e (List.mem_of_mem_filter he)
  | watchAt p r =>
    simp only [runOp, findOrCreate]
    cases hf : sys.instances.find? (fun e => e.2.normalizedPath == p) with
    | some e =>
      have hmem := List.mem_of_find?_eq_some hf
      have hrun := hr e hmem
      simp [startNW, hrun]
      exact ⟨hp, hr⟩
    | none =>
      have hnone := List.find?_eq_none.mp hf
      simp only [startNW]
      by_cases hex : fsExists p
      · simp [hex]
        constructor
        · rw [List.pairwise_append]
          refine ⟨hp, List.pairwise_singleton _ _, ?_⟩
          intro a ha b hb
          simp at hb
          subst hb
          have := hnone a ha
          simp at this
          simp [this]
        · intro e he
          rcases List.mem_append.mp he with h1 | h1
          · exact hr e h1
          · simp at h1
            subst h1
            rfl
      · simp [hex]
        exact ⟨hp, hr⟩

theorem sysInv_runOps (fsExists : String → Bool) (ops : List WatcherOp) :
    sysInv (runOps fsExists ops) := by
  rw [runOps]
  induction ops using List.reverseRecOn with
  | nil => exact ⟨List.Pairwise.nil, by intro e he; simp at he⟩
  | append_singleton ops op ih =>
    rw [List.foldl_append, List.foldl_cons, List.foldl_nil]
    exact runOp_preserves fsExists _ op ih

/-- C8: under any sequence of attach and detach operations, the live
instance table holds at most one `NativeWatcher` per (path, recursive)
pair — no two distinct entries agree on both — and `findOrCreate`
returns the existing live instance for a path rather than creating a
second one. -/
theorem native_watcher_unique_per_path (fsExists : String → Bool) (ops : List WatcherOp) :
    ((runOps fsExists ops).instances.Pairwise (fun a b =>
        a.2.normalizedPath ≠ b.2.normalizedPath ∨ a.2.recursive ≠ b.2.recursive))
    ∧ (∀ hd w p r, (hd, w) ∈ (runOps fsExists ops).instances → w.normalizedPath = p →
        findOrCreate (runOps fsExists ops).instances p r = w) := by
  obtain ⟨hp, hr⟩ := sysInv_runOps fsExists ops
  constructor
  · exact hp.imp (fun hab => Or.inl hab)
  · intro hd w p r hmem hpath
    unfold findOrCreate
    cases hf : (runOps fsExists ops).instances.find? (fun e => e.2.normalizedPath == p) with
    | none =>
      exfalso
      have := List.find?_eq_none.mp hf (hd, w) hmem
      simp [hpath] at this
    | some e =>
      have hprop := List.find?_some hf
      have hmem2 := List.mem_of_find?_eq_some hf
      simp at hprop
      by_cases heq : e = (hd, w)
      · rw [heq]
      · exfalso
        have hsym : Symmetric (fun (a b : Nat × NWRec) => a.2.normalizedPath ≠ b.2.normalizedPath) :=
          fun a b hab => Ne.symm hab
        have := List.Pairwise.forall hsym hp hmem2 hmem heq
        exact this (by rw [hprop, hpath])

/-- Witness for `native_watcher_unique_per_path`: after two attaches at
the same path, `findOrCreate` (even asked with a different recursive
flag) returns the single existing running instance. -/
theorem native_watcher_unique_per_path_witness :
    findOrCreate (runOps (fun _ => true)
        [WatcherOp.watchAt "/a" true, WatcherOp.watchAt "/a" true]).instances "/a" false =
      { normalizedPath := "/a", recursive := true, running := true } :=
  (native_watcher_unique_per_path (fun _ => true)
      [WatcherOp.watchAt "/a" true, WatcherOp.watchAt "/a" true]).2
    0 { normalizedPath := "/a", recursive := true, running := true } "/a" false
    (by decide) (by decide)

/-! ## The consolidation registry (src/native-watcher-registry.js)

The registry is a path trie. Interior nodes (`RegistryNode`) map a path
segment to a child node; leaf nodes (`RegistryWatcherNode`) own a native
watcher, record the absolute path segments of the watched directory, and
keep a set of joined child-path strings for the deeper subscriptions they
serve. Children are kept in insertion order (JS object key order /
`Set` insertion order). -/

/-- A segment of a filesystem path (between separators). -/
abbrev Seg := String

inductive RTree where
  | node (children : List (Seg × RTree))
  | leaf (abs : List Seg) (childPaths : List String)
  deriving Repr

/-- Split a string on the path separator (model of `p.split(path.sep)`,
kernel-computable). -/
def splitSegsAux : List Char → List Char → List String
  | [], acc => [String.mk acc.reverse]
  | c :: rest, acc =>
    if c == '/' then String.mk acc.reverse :: splitSegsAux rest []
    else splitSegsAux rest (c :: acc)

def splitOnSlash (p : String) : List String :=
  splitSegsAux p.data []

/-- Model of `path.join(...segments)` on plain segment lists: joined with
the separator; `path.join()` of no arguments is `"."`. -/
def joinSegs : List Seg → String
  | [] => "."
  | s :: rest => rest.foldl (fun acc t => acc ++ "/" ++ t) s

/-- Embedding of `absolute(...parts)` (src/native-watcher-registry.js):
re-join segments split from an absolute path, prefixing the separator. -/
def absoluteJoin (segs : List Seg) : String :=
  "/" ++ joinSegs segs

/-- The `childPaths` Set built by the `RegistryWatcherNode` constructor:
each child path (a segment list) is joined and inserted, preserving
insertion order and dropping duplicates. -/
def childSet (paths : List (List Seg)) : List String :=
  paths.foldl (fun acc p =>
    let s := joinSegs p
    if acc.contains s then acc else acc ++ [s]) []

/-- Embedding of `RegistryWatcherNode.addChildPath`. -/
def addChildPathL (cps : List String) (rem : List Seg) : List String :=
  let s := joinSegs rem
  if cps.contains s then cps else cps ++ [s]

/-- Lookup in a node's `children` object. -/
def assocFind (cs : List (Seg × RTree)) (s : Seg) : Option RTree :=
  match cs with
  | [] => none
  | (k, v) :: rest => if k == s then some v else assocFind rest s

/-- Assignment `children[key] = value` on a JS object: an existing key is
updated in place (keeping its position), a new key is appended. -/
def assocSet (cs : List (Seg × RTree)) (s : Seg) (t : RTree) : List (Seg × RTree) :=
  match cs with
  | [] => [(s, t)]
  | (k, v) :: rest => if k == s then (k, t) :: rest else (k, v) :: assocSet rest s t

/-- Embedding of `delete children[key]`. -/
def assocErase (cs : List (Seg × RTree)) (s : Seg) : List (Seg × RTree) :=
  match cs with
  | [] => []
  | (k, v) :: rest => if k == s then rest else (k, v) :: assocErase rest s

mutual
/-- Embedding of `RegistryNode.leaves(prefix)` /
`RegistryWatcherNode.leaves(prefix)`: every leaf beneath the node, as
(path from the node, leaf's absolute segments, leaf's child paths). -/
def leavesOf : RTree → List Seg → List (List Seg × List Seg × List String)
  | .leaf abs cps, pre => [(pre, abs, cps)]
  | .node cs, pre => leavesL cs pre

/-- Helper for `leavesOf`, traversing a node's children in order. -/
def leavesL : List (Seg × RTree) → List Seg → List (List Seg × List Seg × List String)
  | [], _ => []
  | (s, t) :: rest, pre => leavesOf t (pre ++ [s]) ++ leavesL rest pre
end

/-- The three outcomes of `RegistryNode.lookup`: a leaf at or above the
requested path (`ParentResult`, with the segments consumed to reach the
leaf and the remaining segments), leaves strictly below it
(`ChildrenResult`), or nothing relevant (`MissingResult`, with the path
of the last traversed interior node — empty iff it is the root — and the
leaves below it). -/
inductive LookupRes where
  | parentFound (consumed : List Seg) (leafAbs : List Seg) (cps : List String)
      (remaining : List Seg)
  | childrenFound (leaves : List (List Seg × List Seg × List String))
  | missingAt (consumed : List Seg) (leaves : List (List Seg × List Seg × List String))
  deriving Repr

/-- Embedding of `RegistryNode.lookup` / `RegistryWatcherNode.lookup`. -/
def lookupT (t : RTree) (consumed segs : List Seg) : LookupRes :=
  match t, segs with
  | .leaf abs cps, rest => .parentFound consumed abs cps rest
  | .node cs, [] => .childrenFound (leavesL cs [])
  | .node cs, s :: rest =>
    match assocFind cs s with
    | none => .missingAt consumed (leavesL cs [])
    | some child => lookupT child (consumed ++ [s]) rest

/-- Embedding of `RegistryNode.insert`: place a leaf at the given path,
creating interior nodes as needed and replacing whatever subtree was
there. (`RegistryWatcherNode.insert` with remaining segments returns
`undefined` in the source, corrupting the parent's child entry; that case
is unreachable in the scenarios below and is modelled as an empty
interior node.) -/
def insertT (t : RTree) (segs : List Seg) (leafN : RTree) : RTree :=
  match t, segs with
  | _, [] => leafN
  | .node cs, s :: rest =>
    let child := match assocFind cs s with
      | some c => c
      | none => .node []
    .node (assocSet cs s (insertT child rest leafN))
  | .leaf _ _, _ :: _ => .node []

/-- The registry options of `NativeWatcherRegistry.DEFAULT_OPTIONS`
(src/native-watcher-registry.js), overridden per platform in
src/main.js. -/
structure RegOptions where
  reuseAncestorWatchers : Bool
  relocateDescendantWatchers : Bool
  relocateAncestorWatchers : Bool
  mergeWatchersWithCommonAncestors : Bool
  maxCommonAncestorLevel : Int
  deriving Repr, DecidableEq

/-- The observable outcome of `RegistryTree.add`: the updated tree, the
absolute paths passed to `createNative` (in call order), the
`nativePath` handed to the new subscription's `attachToNative`, and the
`should-detach` reattachments broadcast to existing natives (identified
by their leaf's absolute segments, with the replacement path). -/
structure AddResult where
  tree : RTree
  created : List String
  attachedPath : String
  reattached : List (List Seg × String)
  deriving Repr

/-- Embedding of `RegistryTree.add` (src/native-watcher-registry.js):
dispatch on the lookup result; reuse a covering ancestor leaf when
`reuseAncestorWatchers` is set, adopt child leaves under a new watcher at
the requested path, or — in the missing case with
`mergeWatchersWithCommonAncestors` — consolidate under the last traversed
ancestor when the segment distance does not exceed
`maxCommonAncestorLevel`; otherwise create a standalone watcher. -/
def addT (opts : RegOptions) (base : List Seg) (t : RTree) (segs : List Seg) : AddResult :=
  let absSegs := base ++ segs
  let absPath := absoluteJoin absSegs
  let attachToNew : List (List Seg) → AddResult := fun cps =>
    { tree := insertT t segs (.leaf absSegs (childSet cps)),
      created := [absPath], attachedPath := absPath, reattached := [] }
  match lookupT t [] segs with
  | .parentFound consumed leafAbs cps remaining =>
    if !opts.reuseAncestorWatchers then attachToNew []
    else
      { tree := insertT t consumed (.leaf leafAbs (addChildPathL cps remaining)),
        created := [], attachedPath := absoluteJoin leafAbs, reattached := [] }
  | .childrenFound leaves =>
    let r := attachToNew (leaves.map (fun l => l.1))
    { r with reattached := leaves.map (fun l => (l.2.1, absPath)) }
  | .missingAt consumed leaves =>
    if !opts.mergeWatchersWithCommonAncestors then attachToNew []
    else if consumed.isEmpty then attachToNew []
    else if leaves.isEmpty then attachToNew []
    else
      let ancestorSegs := consumed
      let remaining := segs.drop ancestorSegs.length
      let difference : Int := (segs.length : Int) - (ancestorSegs.length : Int)
      if difference > opts.maxCommonAncestorLevel then attachToNew []
      else
        let childPaths := childSet ((leaves.map (fun l => base ++ l.1)) ++ [remaining])
        let ancestorAbs := absoluteJoin ancestorSegs
        { tree := insertT t ancestorSegs (.leaf ancestorSegs childPaths),
          created := [ancestorAbs],
          attachedPath := ancestorAbs,
          reattached := leaves.map (fun l => (l.2.1, ancestorAbs)) }

/-- The observable outcome of a removal: the replacement tree (`none`
models the JS `null`), the `createNative` calls, and the reattachments
broadcast from the removed leaf's native. -/
structure RemoveResult where
  tree : Option RTree
  created : List String
  reattached : List (List Seg × String)
  deriving Repr

/-- Embedding of the `replacedWithNode` closure in
`RegistryWatcherNode.remove`: rebuild a subtree rooted at the leaf's
directory by re-adding each remaining child path; each add migrates the
old leaf's subscribers to the native it attached to. -/
def replacedWithNode (opts : RegOptions) (abs : List Seg) (cpsList : List String) :
    RemoveResult :=
  let res := cpsList.foldl
    (fun (acc : RTree × List String × List (List Seg × String)) childPath =>
      let r := addT opts abs acc.1 (splitOnSlash childPath)
      (r.tree, acc.2.1 ++ r.created, acc.2.2 ++ r.reattached ++ [(abs, r.attachedPath)]))
    (.node [], [], [])
  { tree := some res.1, created := res.2.1, reattached := res.2.2 }

/-- Embedding of `RegistryNode.remove` / `RegistryWatcherNode.remove`
(src/native-watcher-registry.js): removing a strictly deeper child path
drops it from the leaf's `childPaths` and, when exactly one child path
remains, narrows by splitting; removing the leaf's own path splits when
child paths remain and deletes the leaf (collapsing empty interior nodes
upward) otherwise. -/
def removeT (opts : RegOptions) (t : RTree) (segs : List Seg) : RemoveResult :=
  match t, segs with
  | .node cs, [] => { tree := some (.node cs), created := [], reattached := [] }
  | .node cs, s :: rest =>
    match assocFind cs s with
    | none => { tree := some (.node cs), created := [], reattached := [] }
    | some child =>
      let r := removeT opts child rest
      let cs2 := match r.tree with
        | none => assocErase cs s
        | some nc => assocSet cs s nc
      { tree := if cs2.isEmpty then none else some (.node cs2),
        created := r.created, reattached := r.reattached }
  | .leaf abs cps, s :: rest =>
    let cps2 := cps.erase (joinSegs (s :: rest))
    if cps2.length == 1 then replacedWithNode opts abs cps2
    else { tree := some (.leaf abs cps2), created := [], reattached := [] }
  | .leaf abs cps, [] =>
    if cps.length > 0 then replacedWithNode opts abs cps
    else { tree := none, created := [], reattached := [] }

/-- Path splitting used by `NativeWatcherRegistry.attach`/`detach`:
`normalizedDirectory.split(path.sep).filter(nonempty)`. -/
def pathSegmentsOf (p : String) : List Seg :=
  (splitOnSlash p).filter (fun s => !s.isEmpty)

/-- Embedding of `NativeWatcherRegistry.attach` against the main tree
(whose `basePathSegments` is empty). -/
def registryAttach (opts : RegOptions) (t : RTree) (normalizedDirectory : String) : AddResult :=
  addT opts [] t (pathSegmentsOf normalizedDirectory)

/-- Embedding of `NativeWatcherRegistry.detach` / `RegistryTree.remove`:
a `null` result resets the root to an empty interior node. -/
def registryDetach (opts : RegOptions) (t : RTree) (normalizedDirectory : String) :
    RTree × List String × List (List Seg × String) :=
  let r := removeT opts t (pathSegmentsOf normalizedDirectory)
  (r.tree.getD (.node []), r.created, r.reattached)

/-! ## Theorems about the consolidation registry -/

/-- C5 (code bug): with `mergeWatchersWithCommonAncestors` enabled and
`maxCommonAncestorLevel = 0` — which the option's own documentation and
the spec say disables the cap — attaching `/X/b` next to an existing leaf
at `/X/a` does NOT merge at the common ancestor `/X`: the code compares
`difference > maxCommonAncestorLevel`, and any positive distance exceeds
`0`, so a standalone watcher is created at `/X/b` and nothing is
migrated. With the cap at `1` the very same attach does merge at `/X`,
creating the ancestor watcher and migrating the `/X/a` leaf. -/
theorem merge_cap_zero_disables_merging_eval :
    let opts0 : RegOptions :=
      { reuseAncestorWatchers := true, relocateDescendantWatchers := false,
        relocateAncestorWatchers := true, mergeWatchersWithCommonAncestors := true,
        maxCommonAncestorLevel := 0 }
    let opts1 : RegOptions :=
      { reuseAncestorWatchers := true, relocateDescendantWatchers := false,
        relocateAncestorWatchers := true, mergeWatchersWithCommonAncestors := true,
        maxCommonAncestorLevel := 1 }
    let t : RTree := (registryAttach opts0 (RTree.node []) "/X/a").tree
    t = RTree.node [("X", RTree.node [("a", RTree.leaf ["X", "a"] [])])]
    ∧ registryAttach opts0 t "/X/b" =
        { tree := RTree.node [("X", RTree.node
            [("a", RTree.leaf ["X", "a"] []), ("b", RTree.leaf ["X", "b"] [])])],
          created := ["/X/b"], attachedPath := "/X/b", reattached := [] }
    ∧ registryAttach opts1 t "/X/b" =
        { tree := RTree.node [("X", RTree.leaf ["X"] ["a", "b"])],
          created := ["/X"], attachedPath := "/X",
          reattached := [(["X", "a"], "/X")] } := by
  exact ⟨rfl, rfl, rfl⟩

/-- C6 (code bug): dropping one of two child paths from an ancestor leaf
narrows the watcher — a new tighter native is created at the remaining
child path `/X/b`, the leaf's subscribers are migrated to it, and the
ancestor leaf is replaced — even though `relocateAncestorWatchers` is
disabled; flipping the option changes nothing, because
`RegistryWatcherNode.remove` never consults it. -/
theorem narrowing_ignores_relocate_option_eval :
    let optsOff : RegOptions :=
      { reuseAncestorWatchers := true, relocateDescendantWatchers := false,
        relocateAncestorWatchers := false, mergeWatchersWithCommonAncestors := true,
        maxCommonAncestorLevel := 2 }
    let optsOn : RegOptions :=
      { reuseAncestorWatchers := true, relocateDescendantWatchers := false,
        relocateAncestorWatchers := true, mergeWatchersWithCommonAncestors := true,
        maxCommonAncestorLevel := 2 }
    let t : RTree := RTree.node [("X", RTree.leaf ["X"] ["a", "b"])]
    registryDetach optsOff t "/X/a" =
      (RTree.node [("X", RTree.node [("b", RTree.leaf ["X", "b"] [])])],
       ["/X/b"], [(["X"], "/X/b")])
    ∧ registryDetach optsOn t "/X/a" =
      (RTree.node [("X", RTree.node [("b", RTree.leaf ["X", "b"] [])])],
       ["/X/b"], [(["X"], "/X/b")]) := by
  exact ⟨rfl, rfl⟩

/-! ## The macOS FSEvents backend (lib/platform/FSEventsFileWatcher.cpp)

Rename reconstruction in `FSEventsFileWatcher::handleActions`. Raw events
carry a path, an FSEvents flag word and an inode; the backend owns two
maps, of which only `pathsToHandles` matters here, and sends
`efsw`-style file actions to the owning handle. `PrecomposeFileName`
(Unicode NFC normalization) is the identity on the ASCII paths
considered here and is modelled as such. -/

structure FSEvent where
  path : String
  flags : Nat
  eventId : Nat
  inode : Nat
  deriving Repr, DecidableEq

/-- FSEvents stream flag constants (FSEvents.h). -/
def kItemCreated : Nat := 0x100
def kItemRemoved : Nat := 0x200
def kItemInodeMetaMod : Nat := 0x400
def kItemRenamed : Nat := 0x800
def kItemModified : Nat := 0x1000
def kItemFinderInfoMod : Nat := 0x2000

/-- Embedding of `shorthandFSEventsModified`:
`ItemFinderInfoMod | ItemModified | ItemInodeMetaMod`. -/
def shorthandFSEventsModified : Nat := kItemFinderInfoMod ||| kItemModified ||| kItemInodeMetaMod

/-- The flags skipped at the top of the `handleActions` loop:
`UserDropped | KernelDropped | EventIdsWrapped | HistoryDone | Mount |
Unmount | RootChanged`. -/
def skipFlagsMask : Nat := 0x2 ||| 0x4 ||| 0x8 ||| 0x10 ||| 0x40 ||| 0x80 ||| 0x20

/-- C-style test of `flags & mask`. -/
def testFlag (flags mask : Nat) : Bool := flags &&& mask != 0

/-- Embedding of `DirRemoveSlashAtEnd`: strip one trailing separator. -/
def dirRemoveSlashAtEnd (s : String) : String :=
  if s.data.getLast? == some '/' then String.mk s.data.dropLast else s

/-- Index of the last separator in a string (`find_last_of`). -/
def lastSlashIdx (s : String) : Option Nat :=
  match s.data.reverse.findIdx? (fun c => c == '/') with
  | some i => some (s.data.length - 1 - i)
  | none => none

/-- Embedding of `PathWithoutFileName(filepath, keepTrailingSeparator)`. -/
def pathWithoutFileName (filepath : String) (keep : Bool) : String :=
  let t := dirRemoveSlashAtEnd filepath
  match lastSlashIdx t with
  | some pos => String.mk (t.data.take (if keep then pos + 1 else pos))
  | none => t

/-- Embedding of `FileNameFromPath`. -/
def fileNameFromPath (filepath : String) : String :=
  let t := dirRemoveSlashAtEnd filepath
  match lastSlashIdx t with
  | some pos => String.mk (t.data.drop (pos + 1))
  | none => t

/-- ASCII model of `strcasecmp(a, b) == 0`. -/
def lowerEq (a b : String) : Bool :=
  a.data.map Char.toLower == b.data.map Char.toLower

inductive EfswAction where
  | add
  | delete
  | modified
  | moved
  deriving Repr, DecidableEq

/-- One `sendFileAction` call as observed by the owning listener. -/
structure SentAction where
  handle : Int
  dir : String
  filename : String
  action : EfswAction
  oldFilename : String
  deriving Repr, DecidableEq

def sendFA (h : Int) (dir filename : String) (a : EfswAction) (old : String) : SentAction :=
  { handle := h, dir := dir, filename := filename, action := a, oldFilename := old }

/-- Embedding of the owner lookup at the top of the `handleActions` loop:
first the path's parent directory is looked up in `pathsToHandles`, then
the path itself; an unmatched event is dropped. -/
def ownerFor (p2h : List (String × Int)) (p : String) : Option (String × Int) :=
  match p2h.find? (fun e => e.1 == pathWithoutFileName p false) with
  | some e => some e
  | none => p2h.find? (fun e => e.1 == p)

/-- Embedding of `FSEventsFileWatcher::handleAddModDel`: an `Add`
confirmed by existence, an unconditional `Modified` when the modified
bits are set, a `Delete` confirmed by non-existence. -/
def handleAddModDel (pathExists : String → Bool) (h : Int) (flags : Nat)
    (path dirPath filePath : String) : List SentAction :=
  (if testFlag flags kItemCreated && pathExists path then
    [sendFA h dirPath filePath .add ""] else [])
  ++ (if testFlag flags shorthandFSEventsModified then
    [sendFA h dirPath filePath .modified ""] else [])
  ++ (if testFlag flags kItemRemoved && !pathExists path then
    [sendFA h dirPath filePath .delete ""] else [])

/-- Insertion into the `dirsChanged` set (only membership matters; the
set's sorted order is irrelevant to `handleActions` itself). -/
def insertDir (dirs : List String) (d : String) : List String :=
  if dirs.contains d then dirs else dirs ++ [d]

/-- Embedding of the main loop of `FSEventsFileWatcher::handleActions`:
skip administrative events, find the owning handle, record changed
directories, and reconstruct renames — two consecutive `ItemRenamed`
events sharing an inode form a pair (one `Moved` within a directory,
direction chosen by existence on disk; a `Delete`/`Add` pair across
directories, with a trailing `Modified` when the second event has
modified bits), while a lone `ItemRenamed` becomes an `Add` or `Delete`
by existence. Returns the sent actions and the final `dirsChanged`. -/
def handleActionsGo (pathExists : String → Bool) (p2h : List (String × Int)) :
    List FSEvent → List String → List SentAction × List String
  | [], dirs => ([], dirs)
  | e :: rest, dirs =>
    if testFlag e.flags skipFlagsMask then handleActionsGo pathExists p2h rest dirs
    else
      match ownerFor p2h e.path with
      | none => handleActionsGo pathExists p2h rest dirs
      | some (path, handle) =>
        let dirPath := pathWithoutFileName e.path true
        let filePath := fileNameFromPath e.path
        let dirs1 :=
          if testFlag e.flags (kItemCreated ||| kItemRemoved ||| kItemRenamed)
              && dirPath != path
          then insertDir dirs dirPath else dirs
        if testFlag e.flags kItemRenamed then
          let loneSent :=
            if pathExists e.path then
              [sendFA handle dirPath filePath .add ""]
              ++ (if testFlag e.flags shorthandFSEventsModified then
                    [sendFA handle dirPath filePath .modified ""] else [])
            else [sendFA handle dirPath filePath .delete ""]
          match rest with
          | n :: rest2 =>
            if testFlag n.flags kItemRenamed && n.inode == e.inode then
              let newDir := pathWithoutFileName n.path true
              let newFilepath := fileNameFromPath n.path
              let sent :=
                if e.path != n.path then
                  if dirPath == newDir then
                    if !pathExists e.path || lowerEq e.path n.path then
                      [sendFA handle dirPath newFilepath .moved filePath]
                    else
                      [sendFA handle dirPath filePath .moved newFilepath]
                  else
                    [sendFA handle dirPath filePath .delete "",
                     sendFA handle newDir newFilepath .add ""]
                    ++ (if testFlag n.flags shorthandFSEventsModified then
                          [sendFA handle dirPath filePath .modified ""] else [])
                else handleAddModDel pathExists handle n.flags n.path dirPath filePath
              let dirs2 :=
                if testFlag n.flags (kItemCreated ||| kItemRemoved ||| kItemRenamed)
                    && newDir != path
                then insertDir dirs1 newDir else dirs1
              let r := handleActionsGo pathExists p2h rest2 dirs2
              (sent ++ r.1, r.2)
            else
              let r := handleActionsGo pathExists p2h (n :: rest2) dirs1
              (loneSent ++ r.1, r.2)
          | [] => (loneSent, dirs1)
        else
          let r := handleActionsGo pathExists p2h rest dirs1
          (handleAddModDel pathExists handle e.flags e.path dirPath filePath ++ r.1, r.2)
  termination_by structural events _ => events

/-! ## Theorems about the FSEvents backend -/

/-- C9 (code bug): a rename pair within the same parent directory is
reconstructed as exactly one `Moved` with direction chosen by on-disk
existence (first conjunct). But for a rename pair across directories,
after the `Delete(old)` and `Add(new)`, the trailing `Modified` demanded
by the second event's modified bits names the OLD path (`dirPath`,
`filePath`), not the new one — even though the file no longer exists at
the old path and the comment says the logic transcribes efsw's
`WatcherFSEvents.cpp`, which sends `Modified(newDir, newFilepath)`
there (second conjunct, showing the emitted actions at a concrete
input). -/
theorem fsevents_rename_pair_eval :
    handleActionsGo (fun p => p == "/A/g") [("/A", 1)]
      [{ path := "/A/f", flags := kItemRenamed, eventId := 10, inode := 7 },
       { path := "/A/g", flags := kItemRenamed, eventId := 11, inode := 7 }] [] =
      ([sendFA 1 "/A/" "g" .moved "f"], ["/A/"])
    ∧ handleActionsGo (fun p => p == "/B/g") [("/A", 1)]
      [{ path := "/A/f", flags := kItemRenamed, eventId := 10, inode := 7 },
       { path := "/B/g", flags := kItemRenamed ||| kItemModified, eventId := 11, inode := 7 }]
      [] =
      ([sendFA 1 "/A/" "f" .delete "",
        sendFA 1 "/B/" "g" .add "",
        sendFA 1 "/A/" "f" .modified ""],
       ["/A/", "/B/"]) := by
  exact ⟨rfl, rfl⟩
